import Mathlib

/-!
Shallow embedding of the browser network traffic tester implemented by the
NetworkTester class in src/js/network-tester.js.

Modelling conventions:
- JavaScript numbers are modelled as rationals; byte counters, which are sums
  of chunk byte lengths, are modelled as naturals.
- The single-threaded event loop is modelled at callback granularity: every
  callback or continuation runs as one atomic step.  A worker suspended in
  await reader.read() can observe interleaved steps of other callbacks (a
  stop) before its read settles.  A read still pending when the worker is
  aborted settles as an AbortError; a read already fulfilled before the
  abort still delivers its chunk, and the resumed continuation attributes it
  unconditionally — the source consults the loop condition only before the
  await, not between the resume and the byte accounting.
- Calls to controller.abort() are recorded in the ghost field abortedIds.
- DOM output is reduced to the chronological append-only log and to the pure
  values the UI code computes (progress percentage, formatted traffic,
  average speed).
-/

namespace NetTester

/-- One entry of the append-only test log produced through NetworkTester.log. -/
inductive LogEntry where
  | connected (tid : ℕ)
  | threadError (tid : ℕ) (msg : String)
  | threadDone (tid : ℕ)
  | threadStopped (tid : ℕ)
  | allInterrupted
  | targetReached
  | summary (elapsedSec : ℚ) (avgSpeedMBps : ℚ) (totalBytes : ℕ)
  deriving DecidableEq

/-- A test thread record as pushed onto this.activeThreads by
createTestThread (the AbortController is modelled by the ghost field
abortedIds of the tester state). -/
structure TestThread where
  id : ℕ
  url : String
  downloaded : ℕ
  isActive : Bool
  deriving DecidableEq

/-- The mutable fields of the NetworkTester instance relevant to a running
session, plus the log and the ghost list of aborted thread ids. -/
structure TesterState where
  isTesting : Bool
  totalDownloaded : ℕ
  targetTrafficBytes : ℚ
  startTime : ℚ
  activeThreads : List TestThread
  timerActive : Bool
  logs : List LogEntry
  abortedIds : List ℕ
  deriving DecidableEq

/-- Append one entry to the log (NetworkTester.log). -/
def pushLog (e : LogEntry) (s : TesterState) : TesterState :=
  { s with logs := s.logs ++ [e] }

/-- The unitMultipliers table of the constructor:
MB ↦ 1024·1024, GB ↦ 1024³, TB ↦ 1024⁴.  The table has exactly these three
keys; the unit select element only offers these three values. -/
def unitMultipliers (unit : String) : ℚ :=
  if unit = "MB" then 1024 * 1024
  else if unit = "GB" then 1024 * 1024 * 1024
  else if unit = "TB" then 1024 * 1024 * 1024 * 1024
  else 0

/-- startTest: this.targetTrafficBytes = trafficLimit * this.unitMultipliers[trafficUnit]. -/
def targetBytesOf (trafficLimit : ℚ) (unit : String) : ℚ :=
  trafficLimit * unitMultipliers unit

/-- The traffic-limit acceptance test of validateTestParams: the parsed
value must not be NaN and must be strictly positive (a parsed number is
modelled as a rational, so only positivity remains). -/
def trafficLimitValid (trafficLimit : ℚ) : Prop :=
  0 < trafficLimit

/-- The per-attempt URL built in createTestThread:
baseUrl + "?thread=" + threadId + "&r=" + randomParam + "&t=" + Date.now(). -/
def mkTestUrl (baseUrl : String) (tid : ℕ) (randomParam : String) (ts : ℕ) : String :=
  baseUrl ++ ("?" ++ ("thread=" ++ toString tid ++ "&r=" ++ randomParam ++ "&t=" ++ toString ts))

/-- url.split(String.mk ['?']) at index 0: the prefix of the string before its
first question mark (the whole string when it has none), as used by
reconnectThread. -/
def beforeQuery (s : String) : String :=
  ⟨s.data.takeWhile (fun c => c ≠ '?')⟩

/-- createTestThread: build the cache-busted URL, push a fresh active thread
record onto this.activeThreads.  (The download it also starts is modelled
separately by readStream and by the failure handler threadFail.) -/
def createTestThread (s : TesterState) (tid : ℕ) (baseUrl : String)
    (randomParam : String) (ts : ℕ) : TesterState :=
  { s with activeThreads :=
      s.activeThreads ++ [⟨tid, mkTestUrl baseUrl tid randomParam ts, 0, true⟩] }

/-- The average-speed computation of stopTest:
avgSpeed = totalTime > 0 ? (totalDownloaded / totalTime) / (1024*1024) : 0. -/
def summaryAvgSpeed (totalDownloaded : ℕ) (totalTime : ℚ) : ℚ :=
  if 0 < totalTime then ((totalDownloaded : ℚ) / totalTime) / (1024 * 1024) else 0

/-- stopTest: early-return when not testing; otherwise clear isTesting and
the update timer, abort every active thread (recorded in abortedIds),
mark it stopped in the log, empty this.activeThreads, and append the final
summary (elapsed seconds, average speed, total bytes).  The body up to its
final await runs synchronously in the JavaScript source. -/
def stopTest (s : TesterState) (now : ℚ) : TesterState :=
  if s.isTesting = false then s
  else
    { s with
      isTesting := false
      timerActive := false
      abortedIds := s.abortedIds ++ s.activeThreads.map (fun t => t.id)
      activeThreads := []
      logs := s.logs ++ s.activeThreads.map (fun t => LogEntry.threadStopped t.id)
        ++ [LogEntry.summary ((now - s.startTime) / 1000)
              (summaryAvgSpeed s.totalDownloaded ((now - s.startTime) / 1000))
              s.totalDownloaded] }

/-- The chunk accounting of readStream:
thread.downloaded += chunkSize; this.totalDownloaded += chunkSize. -/
def addChunk (s : TesterState) (tid n : ℕ) : TesterState :=
  { s with
    totalDownloaded := s.totalDownloaded + n
    activeThreads := s.activeThreads.map fun t =>
      if t.id = tid then { t with downloaded := t.downloaded + n } else t }

/-- The thread.isActive flag consulted by the readStream loop condition,
looked up by thread id (a thread no longer in the list was deactivated by
stopTest before removal, so absence reads as inactive). -/
def threadActive (s : TesterState) (tid : ℕ) : Bool :=
  match s.activeThreads.find? (fun t => t.id = tid) with
  | some t => t.isActive
  | none => false

/-- One outcome of an await reader.read() in readStream: a data chunk, the
natural end of the body, an AbortError raised by cancellation, or another
error. -/
inductive ReadEvent where
  | chunk (n : ℕ)
  | done
  | abortErr
  | err (msg : String)
  deriving DecidableEq

/-- How a readStream run ended: returned normally, propagated an error to
the caller, or ran out of supplied read outcomes while still looping. -/
inductive StreamExit where
  | finished
  | errorThrown (msg : String)
  | starved
  deriving DecidableEq

/-- Result of running readStream: the final tester state, the reconnects it
scheduled via setTimeout as (thread id, delay ms) pairs, and how it exited. -/
structure StreamResult where
  state : TesterState
  scheduled : List (ℕ × ℕ)
  exit : StreamExit
  deriving DecidableEq

/-- One step observed by a worker suspended in await reader.read(): either
the pending read settles with an outcome, or — while the worker is
suspended — another callback stops the test (a user stop, or another worker
crossing the budget).  A read still pending when the abort happens settles
as an AbortError; a read already fulfilled before the abort settles as its
chunk. -/
inductive WorkerEvent where
  | read (r : ReadEvent)
  | stopNow (t : ℚ)
  deriving DecidableEq

/-- The readStream loop from its suspension point onwards: the worker is
awaiting reader.read(), and interleaved stops mutate the shared state while
it waits.  When the read settles the continuation resumes: done logs
completion and schedules a reconnect of the same thread id after 1000 ms; a
chunk is attributed unconditionally — thread.downloaded and
this.totalDownloaded are incremented before any further check, exactly as
in the source, where the while condition was last consulted before the
await — then the budget is checked and, below budget, the while condition
is re-checked before the next read is issued; an AbortError is caught and
swallowed; any other error is rethrown to the caller. -/
def awaitRead (tid : ℕ) (now : ℚ) : TesterState → List WorkerEvent → StreamResult
  | s, [] => ⟨s, [], StreamExit.starved⟩
  | s, WorkerEvent.stopNow t :: rest => awaitRead tid now (stopTest s t) rest
  | s, WorkerEvent.read ReadEvent.done :: _ =>
    ⟨pushLog (LogEntry.threadDone tid) s, [(tid, 1000)], StreamExit.finished⟩
  | s, WorkerEvent.read (ReadEvent.chunk n) :: rest =>
    let s1 := addChunk s tid n
    if s1.targetTrafficBytes ≤ (s1.totalDownloaded : ℚ) then
      ⟨pushLog LogEntry.targetReached (stopTest s1 now), [], StreamExit.finished⟩
    else if s1.isTesting && threadActive s1 tid then awaitRead tid now s1 rest
    else ⟨s1, [], StreamExit.finished⟩
  | s, WorkerEvent.read ReadEvent.abortErr :: _ => ⟨s, [], StreamExit.finished⟩
  | s, WorkerEvent.read (ReadEvent.err m) :: _ => ⟨s, [], StreamExit.errorThrown m⟩

/-- readStream(reader, thread): the while condition
this.isTesting && thread.isActive is checked before each await
reader.read(); when it holds the worker suspends in awaitRead and the trace
lists what it observes until its continuation returns. -/
def readStream (tid : ℕ) (now : ℚ) (s : TesterState) (evs : List WorkerEvent) : StreamResult :=
  if s.isTesting && threadActive s tid then awaitRead tid now s evs
  else ⟨s, [], StreamExit.finished⟩

/-- reconnectThread: drop the old record of this thread id from
this.activeThreads, then createTestThread with the same id against
thread.url.split(String.mk ['?']) at index 0. -/
def reconnectThread (s : TesterState) (t : TestThread)
    (randomParam : String) (ts : ℕ) : TesterState :=
  createTestThread
    { s with activeThreads := s.activeThreads.filter (fun x => x.id ≠ t.id) }
    t.id (beforeQuery t.url) randomParam ts

/-- The setTimeout callback scheduled by readStream on stream end:
if (this.isTesting) this.reconnectThread(thread). -/
def fireReconnect (s : TesterState) (t : TestThread)
    (randomParam : String) (ts : ℕ) : TesterState :=
  if s.isTesting then reconnectThread s t randomParam ts else s

/-- checkAllThreadsCompleted: if every thread is inactive while the test is
still running, log the all-threads-interrupted warning and stop the test. -/
def checkAllThreadsCompleted (s : TesterState) (now : ℚ) : TesterState :=
  if s.activeThreads.all (fun t => !t.isActive) && s.isTesting then
    stopTest (pushLog LogEntry.allInterrupted s) now
  else s

/-- The assignment thread.isActive = false of the rejection handler,
applied to the thread record with the given id. -/
def markInactive (s : TesterState) (tid : ℕ) : TesterState :=
  { s with activeThreads := s.activeThreads.map fun t =>
      if t.id = tid then { t with isActive := false } else t }

/-- The rejection handler installed by createTestThread on the download
promise: log a thread error unless the error is an AbortError, mark the
thread inactive, then checkAllThreadsCompleted. -/
def threadFail (s : TesterState) (tid : ℕ) (errName errMsg : String) (now : ℚ) : TesterState :=
  checkAllThreadsCompleted
    (markInactive
      (if errName ≠ "AbortError" then pushLog (LogEntry.threadError tid errMsg) s else s) tid)
    now

/-- updateProgress: from the previous sample time (ms), the previously
recorded download total, the speed history and the current total and time,
compute the instantaneous speed (0 unless the interval is positive), push it
onto the history, shift off the oldest entry when the length exceeds the
smoothing window of 10, and report the average of the kept samples.
The method then also assigns lastUpdateTime := now and
lastDownloaded := totalDownloaded, returned here implicitly. -/
def updateProgress (lastUpdateTime : ℚ) (lastDownloaded : ℕ)
    (speedHistory : List ℚ) (totalDownloaded : ℕ) (now : ℚ) : List ℚ × ℚ :=
  let interval := now - lastUpdateTime
  let downloadedInInterval := (totalDownloaded : ℚ) - (lastDownloaded : ℚ)
  let currentSpeed := if 0 < interval then downloadedInInterval / (interval / 1000) else 0
  let hist1 := speedHistory ++ [currentSpeed]
  let hist2 := if 10 < hist1.length then hist1.tail else hist1
  (hist2, hist2.foldl (· + ·) 0 / (hist2.length : ℚ))

/-- The progress percentage of updateProgressUI:
Math.min(100, (totalDownloaded / targetTrafficBytes) * 100). -/
def progressPercent (totalDownloaded : ℕ) (targetTrafficBytes : ℚ) : ℚ :=
  min 100 (((totalDownloaded : ℚ) / targetTrafficBytes) * 100)

/-- formatTrafficDisplay: zero bytes displays as 0 MB; otherwise convert to
MB and, while the value is at least 1024 and a larger unit (up to TB)
remains, divide by 1024 and step the unit up.  The two loop iterations are
unrolled. -/
def formatTrafficDisplay (bytes : ℚ) : ℚ × String :=
  if bytes = 0 then (0, "MB")
  else
    let v0 := bytes / (1024 * 1024)
    if 1024 ≤ v0 then
      if 1024 ≤ v0 / 1024 then (v0 / 1024 / 1024, "TB") else (v0 / 1024, "GB")
    else (v0, "MB")

/-- Recognizer for the all-threads-interrupted warning log entry. -/
def isAllInterrupted : LogEntry → Bool
  | LogEntry.allInterrupted => true
  | _ => false

/-- Recognizer for per-thread error log entries. -/
def isThreadErrorLog : LogEntry → Bool
  | LogEntry.threadError _ _ => true
  | _ => false

/-- Thread tid is recorded as inactive everywhere it still appears in the
active-thread list. -/
def deadIn (st : TesterState) (tid : ℕ) : Prop :=
  ∀ t ∈ st.activeThreads, t.id = tid → t.isActive = false

/-- Invariant tying the warning count to the session phase: while running,
no all-interrupted warning has been logged and some thread is still active;
once stopped by the all-failed path, exactly one warning is in the log. -/
def InvAI (st : TesterState) : Prop :=
  (st.isTesting = true →
    st.logs.countP isAllInterrupted = 0 ∧ st.activeThreads.any (fun t => t.isActive) = true)
  ∧ (st.isTesting = false → st.logs.countP isAllInterrupted = 1)

/-- A small running session used to instantiate theorems with hypotheses:
one active thread, empty accumulator, a budget of 5 bytes. -/
def sampleState : TesterState :=
  { isTesting := true, totalDownloaded := 0, targetTrafficBytes := 5, startTime := 0,
    activeThreads := [⟨0, "u", 0, true⟩], timerActive := true, logs := [], abortedIds := [] }

/-- A running session with two active threads, used to instantiate the
all-threads-failed scenario. -/
def twoThreadState : TesterState :=
  { isTesting := true, totalDownloaded := 0, targetTrafficBytes := 100, startTime := 0,
    activeThreads := [⟨0, "u0", 0, true⟩, ⟨1, "u1", 0, true⟩], timerActive := true,
    logs := [], abortedIds := [] }

/-! Helper lemmas. -/

theorem stopTest_isTesting (s : TesterState) (now : ℚ) : (stopTest s now).isTesting = false := by
  unfold stopTest
  split
  · assumption
  · rfl

theorem stopTest_totalDownloaded (s : TesterState) (now : ℚ) :
    (stopTest s now).totalDownloaded = s.totalDownloaded := by
  unfold stopTest
  split <;> rfl

theorem stopTest_target (s : TesterState) (now : ℚ) :
    (stopTest s now).targetTrafficBytes = s.targetTrafficBytes := by
  unfold stopTest
  split <;> rfl

theorem pushLog_logs (e : LogEntry) (s : TesterState) :
    (pushLog e s).logs = s.logs ++ [e] := rfl

theorem countP_stopTest (p : LogEntry → Bool)
    (hstop : ∀ tid, p (LogEntry.threadStopped tid) = false)
    (hsum : ∀ a b c, p (LogEntry.summary a b c) = false) (s : TesterState) (now : ℚ) :
    ((stopTest s now).logs).countP p = s.logs.countP p := by
  unfold stopTest
  split
  · rfl
  · dsimp only
    rw [List.countP_append, List.countP_append]
    have h1 : (s.activeThreads.map (fun t => LogEntry.threadStopped t.id)).countP p = 0 := by
      rw [List.countP_eq_zero]
      intro a ha
      obtain ⟨t, _, rfl⟩ := List.mem_map.mp ha
      simp [hstop]
    rw [h1]
    simp [List.countP_cons, hsum]

theorem foldl_add_eq_sum (l : List ℚ) (init : ℚ) : l.foldl (· + ·) init = init + l.sum := by
  induction l generalizing init with
  | nil => simp
  | cons a t ih => rw [List.foldl_cons, ih, List.sum_cons]; ring

theorem string_data_append (s t : String) : (s ++ t).data = s.data ++ t.data := rfl

theorem takeWhile_append_stop (p : Char → Bool) (l₁ l₂ : List Char) (c : Char)
    (hc : p c = false) : (l₁ ++ c :: l₂).takeWhile p = l₁.takeWhile p := by
  induction l₁ with
  | nil => simp [List.takeWhile_cons, hc]
  | cons a t ih => by_cases ha : p a <;> simp [List.takeWhile_cons, ha, ih]

theorem beforeQuery_append_query (a b : String) (hb : b.data.head? = some '?') :
    beforeQuery (a ++ b) = beforeQuery a := by
  unfold beforeQuery
  cases hdata : b.data with
  | nil => rw [hdata] at hb; cases hb
  | cons c l₂ =>
    rw [hdata] at hb
    have hc : c = '?' := by simpa using hb
    have h2 : (a ++ b).data = a.data ++ c :: l₂ := by rw [string_data_append, hdata]
    rw [h2]
    subst hc
    rw [takeWhile_append_stop _ _ _ _ (by decide)]

theorem beforeQuery_mkTestUrl (base : String) (tid : ℕ) (r : String) (ts : ℕ) :
    beforeQuery (mkTestUrl base tid r ts) = beforeQuery base := by
  unfold mkTestUrl
  apply beforeQuery_append_query
  have h1 : ("?" : String).data = ['?'] := by decide
  rw [string_data_append, h1]
  rfl

theorem beforeQuery_idem (s : String) : beforeQuery (beforeQuery s) = beforeQuery s := by
  unfold beforeQuery
  exact congrArg String.mk (List.takeWhile_idem)

/-! Claim C8. -/

theorem unitMultipliers_MB : unitMultipliers "MB" = 1024 * 1024 := by
  unfold unitMultipliers
  rw [if_pos rfl]

theorem unitMultipliers_GB : unitMultipliers "GB" = 1024 * 1024 * 1024 := by
  unfold unitMultipliers
  rw [if_neg (by decide), if_pos rfl]

theorem unitMultipliers_TB : unitMultipliers "TB" = 1024 * 1024 * 1024 * 1024 := by
  unfold unitMultipliers
  rw [if_neg (by decide), if_neg (by decide), if_pos rfl]

/-- C8 counterexample: the traffic limit 1/2097152 MB passes the start-time
validation (it is strictly positive), yet the resulting target byte budget
computed by startTest is 1/2 — not equal to any integer, and below 1.  This
refutes the claim that every accepted configuration yields an integer
budget greater than or equal to 1. -/
theorem target_bytes_not_integer_cex :
    trafficLimitValid (1 / 2097152)
    ∧ targetBytesOf (1 / 2097152) "MB" = 1 / 2
    ∧ (¬ ∃ k : ℤ, targetBytesOf (1 / 2097152) "MB" = (k : ℚ))
    ∧ targetBytesOf (1 / 2097152) "MB" < 1 := by
  have hval : targetBytesOf (1 / 2097152) "MB" = 1 / 2 := by
    rw [targetBytesOf, unitMultipliers_MB]
    norm_num
  refine ⟨by norm_num [trafficLimitValid], hval, ?_, by rw [hval]; norm_num⟩
  rintro ⟨k, hk⟩
  rw [hval] at hk
  have h2 : (1 : ℚ) = 2 * (k : ℚ) := by linarith
  have h3 : (1 : ℤ) = 2 * k := by exact_mod_cast h2
  omega

/-- C8 (amended): for every configuration accepted by start-time validation
(a strictly positive traffic limit with a unit from MB, GB, TB), the target
byte budget computed by startTest — the limit times 2^20, 2^30 or 2^40 —
is strictly positive (though not necessarily an integer nor at least 1). -/
theorem target_bytes_positive (limit : ℚ) (unit : String)
    (hv : trafficLimitValid limit)
    (hu : unit = "MB" ∨ unit = "GB" ∨ unit = "TB") :
    0 < targetBytesOf limit unit := by
  rcases hu with h | h | h <;> subst h <;> refine mul_pos hv ?_
  · rw [unitMultipliers_MB]; norm_num
  · rw [unitMultipliers_GB]; norm_num
  · rw [unitMultipliers_TB]; norm_num

/-- Witness for target_bytes_positive at limit 10 GB. -/
theorem target_bytes_positive_witness : 0 < targetBytesOf 10 "GB" :=
  target_bytes_positive 10 "GB" (by norm_num [trafficLimitValid]) (Or.inr (Or.inl rfl))

/-! Claim C9. -/

/-- C9: the cumulative-traffic formatter starts at MB and steps up through
GB to TB, dividing by 1024 only while the value is at least 1024: 2^20
bytes formats as value 1 with unit MB, 2^30 bytes as value 1 with unit GB,
whenever the chosen unit is MB or GB the displayed magnitude is below 1024,
and a magnitude of 1024 or more is only ever displayed in the final unit
TB. -/
theorem traffic_display_autoscale (b : ℚ) :
    formatTrafficDisplay 1048576 = (1, "MB")
    ∧ formatTrafficDisplay 1073741824 = (1, "GB")
    ∧ ((formatTrafficDisplay b).2 = "MB" ∨ (formatTrafficDisplay b).2 = "GB" →
        (formatTrafficDisplay b).1 < 1024)
    ∧ (1024 ≤ (formatTrafficDisplay b).1 → (formatTrafficDisplay b).2 = "TB") := by
  refine ⟨by norm_num [formatTrafficDisplay], by norm_num [formatTrafficDisplay], ?_, ?_⟩
  · simp only [formatTrafficDisplay]
    split_ifs with h0 h1 h2
    · intro _; dsimp only; norm_num
    · intro h; dsimp only at h
      rcases h with h | h <;> exact absurd h (by decide)
    · intro _; dsimp only; exact not_le.mp h2
    · intro _; dsimp only; exact not_le.mp h1
  · simp only [formatTrafficDisplay]
    split_ifs with h0 h1 h2
    · intro h; dsimp only at h; norm_num at h
    · intro _; rfl
    · intro h; dsimp only at h; exact absurd h h2
    · intro h; dsimp only at h; exact absurd h h1

/-- Witness for traffic_display_autoscale: 2048 bytes stays in the MB range
with magnitude below 1024, and 2^51 bytes scales all the way to TB. -/
theorem traffic_display_autoscale_witness :
    ((formatTrafficDisplay 2048).2 = "MB" ∨ (formatTrafficDisplay 2048).2 = "GB")
    ∧ (formatTrafficDisplay 2048).1 < 1024
    ∧ (formatTrafficDisplay 2251799813685248).2 = "TB" :=
  ⟨Or.inl (by norm_num [formatTrafficDisplay]),
    (traffic_display_autoscale 2048).2.2.1 (Or.inl (by norm_num [formatTrafficDisplay])),
    (traffic_display_autoscale 2251799813685248).2.2.2 (by norm_num [formatTrafficDisplay])⟩

/-! Claim C10. -/

/-- C10: stopping a running session appends a final summary whose average
speed is summaryAvgSpeed applied to the total bytes and the elapsed
seconds; summaryAvgSpeed equals total divided by elapsed seconds scaled to
MB per second whenever the elapsed time is positive, and is exactly 0 when
the elapsed time is 0 — guarded against division by zero. -/
theorem final_summary_avg_guarded (s : TesterState) (now : ℚ) (total : ℕ) (e : ℚ)
    (hrun : s.isTesting = true) (he : 0 < e) :
    (stopTest s now).logs
      = s.logs ++ s.activeThreads.map (fun t => LogEntry.threadStopped t.id)
        ++ [LogEntry.summary ((now - s.startTime) / 1000)
              (summaryAvgSpeed s.totalDownloaded ((now - s.startTime) / 1000))
              s.totalDownloaded]
    ∧ summaryAvgSpeed total e = ((total : ℚ) / e) / (1024 * 1024)
    ∧ summaryAvgSpeed total 0 = 0 := by
  refine ⟨?_, ?_, ?_⟩
  · unfold stopTest
    rw [if_neg (by simp [hrun])]
  · unfold summaryAvgSpeed
    rw [if_pos he]
  · unfold summaryAvgSpeed
    rw [if_neg (by norm_num)]

/-- Witness for final_summary_avg_guarded on the sample session stopped at
time 3 with 7 bytes over 2 seconds. -/
theorem final_summary_avg_guarded_witness :
    (stopTest sampleState 3).logs
      = sampleState.logs
        ++ sampleState.activeThreads.map (fun t => LogEntry.threadStopped t.id)
        ++ [LogEntry.summary ((3 - sampleState.startTime) / 1000)
              (summaryAvgSpeed sampleState.totalDownloaded ((3 - sampleState.startTime) / 1000))
              sampleState.totalDownloaded]
    ∧ summaryAvgSpeed 7 2 = (((7 : ℕ) : ℚ) / 2) / (1024 * 1024)
    ∧ summaryAvgSpeed 7 0 = 0 :=
  final_summary_avg_guarded sampleState 3 7 2 rfl (by norm_num)

/-! Claim C6. -/

/-- C6 counterexample: a worker configured against the base endpoint
http://e.com/a?x=1 (a URL carrying a query string, as the Cloudflare preset
does) is reconnected by reconnectThread to
http://e.com/a?thread=0&r=r1&t=6 — the query string x=1 of the configured
endpoint is dropped, so the new URL is not the configured test URL extended
by fresh cache-busting parameters. -/
theorem reconnect_drops_base_query_cex :
    (reconnectThread
        { isTesting := true, totalDownloaded := 0, targetTrafficBytes := 100,
          startTime := 0,
          activeThreads := [⟨0, mkTestUrl "http://e.com/a?x=1" 0 "r0" 5, 0, true⟩],
          timerActive := true, logs := [], abortedIds := [] }
        ⟨0, mkTestUrl "http://e.com/a?x=1" 0 "r0" 5, 0, true⟩ "r1" 6).activeThreads
      = [⟨0, "http://e.com/a?thread=0&r=r1&t=6", 0, true⟩]
    ∧ ("http://e.com/a?thread=0&r=r1&t=6" : String) ≠ mkTestUrl "http://e.com/a?x=1" 0 "r1" 6 := by
  exact ⟨by decide, by decide⟩

/-- C6 (amended): on reconnect, the new connection URL is the worker's
previous URL truncated at its first question mark — which drops any query
string the configured endpoint carried — extended by fresh cache-busting
parameters (thread id, random token, timestamp); the worker id is reused,
and the truncated base is stable across further reconnects, so a worker id
denotes one logical stream against the truncated endpoint. -/
theorem reconnect_truncated_base_fresh_params (s : TesterState) (tid : ℕ)
    (base r0 r1 : String) (ts0 ts1 d : ℕ) (act : Bool) :
    (∃ nt ∈ (reconnectThread s ⟨tid, mkTestUrl base tid r0 ts0, d, act⟩ r1 ts1).activeThreads,
        nt.id = tid ∧ nt.url = mkTestUrl (beforeQuery base) tid r1 ts1)
    ∧ beforeQuery (mkTestUrl (beforeQuery base) tid r1 ts1) = beforeQuery base := by
  constructor
  · refine ⟨⟨tid, mkTestUrl (beforeQuery (mkTestUrl base tid r0 ts0)) tid r1 ts1, 0, true⟩,
      ?_, rfl, ?_⟩
    · exact List.mem_append_right _ (List.mem_singleton.mpr rfl)
    · rw [beforeQuery_mkTestUrl]
  · rw [beforeQuery_mkTestUrl, beforeQuery_idem]

/-! Claim C2. -/

/-- C2: each tick appends to the speed history the instantaneous rate —
bytes since the last tick divided by elapsed seconds, contributing 0 when
the elapsed time is not strictly positive — evicting the oldest sample
exactly when the history already holds 10, so the length never exceeds 10,
and reports the arithmetic mean of the samples now in the history. -/
theorem speed_sample_window_mean (lt₀ : ℚ) (ld : ℕ) (hist : List ℚ) (total : ℕ) (now : ℚ)
    (hlen : hist.length ≤ 10) :
    (updateProgress lt₀ ld hist total now).1
      = (if hist.length = 10 then hist.tail else hist)
        ++ [if 0 < (now - lt₀) / 1000
            then ((total : ℚ) - (ld : ℚ)) / ((now - lt₀) / 1000) else 0]
    ∧ (updateProgress lt₀ ld hist total now).1.length ≤ 10
    ∧ (updateProgress lt₀ ld hist total now).2
      = (updateProgress lt₀ ld hist total now).1.sum
        / ((updateProgress lt₀ ld hist total now).1.length : ℚ) := by
  have hcond : (0 < (now - lt₀) / 1000) = (0 < now - lt₀) := by
    rw [eq_iff_iff, lt_div_iff₀ (show (0:ℚ) < 1000 by norm_num), zero_mul]
  have hfst : (updateProgress lt₀ ld hist total now).1
      = (if hist.length = 10 then hist.tail else hist)
        ++ [if 0 < (now - lt₀) / 1000
            then ((total : ℚ) - (ld : ℚ)) / ((now - lt₀) / 1000) else 0] := by
    simp only [updateProgress, hcond, List.length_append, List.length_cons,
      List.length_nil]
    by_cases h10 : hist.length = 10
    · rw [if_pos (by omega), if_pos h10]
      cases hist with
      | nil => exact absurd h10 (by simp)
      | cons a as => rfl
    · rw [if_neg (by omega), if_neg h10]
  refine ⟨hfst, ?_, ?_⟩
  · rw [hfst]
    by_cases h10 : hist.length = 10
    · rw [if_pos h10]
      simp only [List.length_append, List.length_tail, List.length_cons, List.length_nil]
      omega
    · rw [if_neg h10]
      simp only [List.length_append, List.length_cons, List.length_nil]
      omega
  · simp only [updateProgress]
    rw [foldl_add_eq_sum, zero_add]

/-- Witness for speed_sample_window_mean: first tick of a session, 500
bytes over 2000 ms, yielding the single sample 250 and mean 250. -/
theorem speed_sample_window_mean_witness :
    (updateProgress 0 0 [] 500 2000).1
      = (if ([] : List ℚ).length = 10 then ([] : List ℚ).tail else ([] : List ℚ))
        ++ [if 0 < ((2000 : ℚ) - 0) / 1000
            then (((500 : ℕ) : ℚ) - ((0 : ℕ) : ℚ)) / (((2000 : ℚ) - 0) / 1000) else 0]
    ∧ (updateProgress 0 0 [] 500 2000).1.length ≤ 10
    ∧ (updateProgress 0 0 [] 500 2000).2
      = (updateProgress 0 0 [] 500 2000).1.sum
        / ((updateProgress 0 0 [] 500 2000).1.length : ℚ) :=
  speed_sample_window_mean 0 0 [] 500 2000 (by decide)

/-! Lemmas about readStream. -/

theorem readStream_nil_state (tid : ℕ) (now : ℚ) (s : TesterState) :
    (readStream tid now s []).state = s := by
  unfold readStream
  split <;> rfl

theorem addChunk_ids (s : TesterState) (tid n : ℕ) :
    (addChunk s tid n).activeThreads.map (fun t => t.id)
      = s.activeThreads.map (fun t => t.id) := by
  simp only [addChunk, List.map_map]
  apply List.map_congr_left
  intro t _
  by_cases h : t.id = tid <;> simp [h]

theorem awaitRead_total_target :
    ∀ (evs : List WorkerEvent) (s : TesterState) (tid : ℕ) (now : ℚ),
      s.totalDownloaded ≤ (awaitRead tid now s evs).state.totalDownloaded
      ∧ (awaitRead tid now s evs).state.targetTrafficBytes = s.targetTrafficBytes := by
  intro evs
  induction evs with
  | nil => intro s tid now; exact ⟨le_rfl, rfl⟩
  | cons e rest ih =>
    intro s tid now
    cases e with
    | stopNow t =>
      simp only [awaitRead]
      obtain ⟨h1, h2⟩ := ih (stopTest s t) tid now
      rw [stopTest_totalDownloaded] at h1
      rw [stopTest_target] at h2
      exact ⟨h1, h2⟩
    | read r =>
      cases r with
      | done => exact ⟨le_rfl, rfl⟩
      | chunk n =>
        simp only [awaitRead]
        by_cases hb : (addChunk s tid n).targetTrafficBytes
            ≤ ((addChunk s tid n).totalDownloaded : ℚ)
        · rw [if_pos hb]
          refine ⟨?_, ?_⟩
          · show s.totalDownloaded ≤ (stopTest (addChunk s tid n) now).totalDownloaded
            rw [stopTest_totalDownloaded]
            exact Nat.le_add_right _ _
          · show (stopTest (addChunk s tid n) now).targetTrafficBytes = _
            rw [stopTest_target]
            rfl
        · rw [if_neg hb]
          by_cases hc2 : ((addChunk s tid n).isTesting
              && threadActive (addChunk s tid n) tid) = true
          · rw [if_pos hc2]
            obtain ⟨h1, h2⟩ := ih (addChunk s tid n) tid now
            refine ⟨le_trans (Nat.le_add_right _ n) h1, ?_⟩
            rw [h2]
            rfl
          · rw [if_neg hc2]
            exact ⟨Nat.le_add_right _ _, rfl⟩
      | abortErr => exact ⟨le_rfl, rfl⟩
      | err m => exact ⟨le_rfl, rfl⟩

theorem readStream_total_target :
    ∀ (evs : List WorkerEvent) (s : TesterState) (tid : ℕ) (now : ℚ),
      s.totalDownloaded ≤ (readStream tid now s evs).state.totalDownloaded
      ∧ (readStream tid now s evs).state.targetTrafficBytes = s.targetTrafficBytes := by
  intro evs s tid now
  unfold readStream
  split
  · exact awaitRead_total_target evs s tid now
  · exact ⟨le_rfl, rfl⟩

theorem awaitRead_scheduled :
    ∀ (evs : List WorkerEvent) (s : TesterState) (tid : ℕ) (now : ℚ),
      (awaitRead tid now s evs).scheduled = []
      ∨ (awaitRead tid now s evs).scheduled = [(tid, 1000)] := by
  intro evs
  induction evs with
  | nil => intro s tid now; exact Or.inl rfl
  | cons e rest ih =>
    intro s tid now
    cases e with
    | stopNow t =>
      simp only [awaitRead]
      exact ih (stopTest s t) tid now
    | read r =>
      cases r with
      | done => exact Or.inr rfl
      | chunk n =>
        simp only [awaitRead]
        by_cases hb : (addChunk s tid n).targetTrafficBytes
            ≤ ((addChunk s tid n).totalDownloaded : ℚ)
        · rw [if_pos hb]; exact Or.inl rfl
        · rw [if_neg hb]
          by_cases hc2 : ((addChunk s tid n).isTesting
              && threadActive (addChunk s tid n) tid) = true
          · rw [if_pos hc2]; exact ih (addChunk s tid n) tid now
          · rw [if_neg hc2]; exact Or.inl rfl
      | abortErr => exact Or.inl rfl
      | err m => exact Or.inl rfl

theorem readStream_scheduled :
    ∀ (evs : List WorkerEvent) (s : TesterState) (tid : ℕ) (now : ℚ),
      (readStream tid now s evs).scheduled = []
      ∨ (readStream tid now s evs).scheduled = [(tid, 1000)] := by
  intro evs s tid now
  unfold readStream
  split
  · exact awaitRead_scheduled evs s tid now
  · exact Or.inl rfl

/-! Claim C1. -/

/-- C1: while the session is running and below budget, processing one chunk
adds exactly its size to the total; when that addition reaches or exceeds
the target, the very same readStream step leaves the session stopped
(isTesting false) with every previously active worker aborted and the
thread list cleared; and the resulting total always stays below the budget
plus the size of that single crossing chunk. -/
theorem budget_stop_same_chunk_step (s : TesterState) (tid n : ℕ) (now : ℚ)
    (hrun : s.isTesting = true) (hact : threadActive s tid = true)
    (hlt : (s.totalDownloaded : ℚ) < s.targetTrafficBytes) :
    (readStream tid now s [WorkerEvent.read (ReadEvent.chunk n)]).state.totalDownloaded
        = s.totalDownloaded + n
    ∧ (s.targetTrafficBytes ≤ ((s.totalDownloaded + n : ℕ) : ℚ) →
        (readStream tid now s [WorkerEvent.read (ReadEvent.chunk n)]).state.isTesting = false
        ∧ (readStream tid now s [WorkerEvent.read (ReadEvent.chunk n)]).state.activeThreads = []
        ∧ ∀ t ∈ s.activeThreads,
            t.id ∈ (readStream tid now s
              [WorkerEvent.read (ReadEvent.chunk n)]).state.abortedIds)
    ∧ ((readStream tid now s [WorkerEvent.read (ReadEvent.chunk n)]).state.totalDownloaded : ℚ)
        < s.targetTrafficBytes + (n : ℚ) := by
  have hcond : (s.isTesting && threadActive s tid) = true := by rw [hrun, hact]; rfl
  unfold readStream
  rw [if_pos hcond]
  simp only [awaitRead]
  have htot : (addChunk s tid n).totalDownloaded = s.totalDownloaded + n := rfl
  have htgt : (addChunk s tid n).targetTrafficBytes = s.targetTrafficBytes := rfl
  by_cases hb : (addChunk s tid n).targetTrafficBytes
      ≤ ((addChunk s tid n).totalDownloaded : ℚ)
  · rw [if_pos hb]
    have hrun1 : (addChunk s tid n).isTesting = true := hrun
    refine ⟨?_, fun _ => ⟨?_, ?_, ?_⟩, ?_⟩
    · show (stopTest (addChunk s tid n) now).totalDownloaded = _
      rw [stopTest_totalDownloaded]
      exact htot
    · show (stopTest (addChunk s tid n) now).isTesting = false
      exact stopTest_isTesting _ _
    · show (stopTest (addChunk s tid n) now).activeThreads = []
      unfold stopTest
      rw [if_neg (by simp [hrun1])]
    · intro t ht
      show t.id ∈ (stopTest (addChunk s tid n) now).abortedIds
      unfold stopTest
      rw [if_neg (by simp [hrun1])]
      refine List.mem_append_right _ ?_
      rw [addChunk_ids]
      exact List.mem_map_of_mem _ ht
    · show ((stopTest (addChunk s tid n) now).totalDownloaded : ℚ) < _
      rw [stopTest_totalDownloaded, htot]
      push_cast
      linarith
  · rw [if_neg hb]
    by_cases hc2 : ((addChunk s tid n).isTesting && threadActive (addChunk s tid n) tid) = true
    · rw [if_pos hc2]
      refine ⟨htot, fun hge => absurd ?_ hb, ?_⟩
      · rw [htot, htgt]
        exact_mod_cast hge
      · show ((addChunk s tid n).totalDownloaded : ℚ) < _
        rw [htot]
        push_cast
        linarith
    · rw [if_neg hc2]
      refine ⟨htot, fun hge => absurd ?_ hb, ?_⟩
      · rw [htot, htgt]
        exact_mod_cast hge
      · show ((addChunk s tid n).totalDownloaded : ℚ) < _
        rw [htot]
        push_cast
        linarith

/-- Witness for budget_stop_same_chunk_step: the sample session with budget
5 receives a 7-byte chunk at time 2 and stops within that step. -/
theorem budget_stop_same_chunk_step_witness :
    (readStream 0 2 sampleState
        [WorkerEvent.read (ReadEvent.chunk 7)]).state.totalDownloaded
        = sampleState.totalDownloaded + 7
    ∧ (sampleState.targetTrafficBytes ≤ ((sampleState.totalDownloaded + 7 : ℕ) : ℚ) →
        (readStream 0 2 sampleState
            [WorkerEvent.read (ReadEvent.chunk 7)]).state.isTesting = false
        ∧ (readStream 0 2 sampleState
            [WorkerEvent.read (ReadEvent.chunk 7)]).state.activeThreads = []
        ∧ ∀ t ∈ sampleState.activeThreads,
            t.id ∈ (readStream 0 2 sampleState
              [WorkerEvent.read (ReadEvent.chunk 7)]).state.abortedIds)
    ∧ ((readStream 0 2 sampleState
        [WorkerEvent.read (ReadEvent.chunk 7)]).state.totalDownloaded : ℚ)
        < sampleState.targetTrafficBytes + ((7 : ℕ) : ℚ) :=
  budget_stop_same_chunk_step sampleState 0 7 2 rfl rfl
    (by norm_num [sampleState])

theorem stopTest_not_testing (s : TesterState) (now : ℚ) (h : s.isTesting = false) :
    stopTest s now = s := by
  unfold stopTest
  rw [if_pos h]

/-! Claim C3. -/

/-- C3 counterexample: a read already fulfilled with a chunk when the stop
aborted its worker is still processed after the cancellation.  In the
sample session, the stop at time 1 cancels the session and aborts worker 0
(its id is recorded among the abort calls) with 0 bytes downloaded, yet the
worker resumes from its await afterwards and the unconditional byte
accounting of readStream adds the 100-byte chunk — the total is 100 after
the cancellation, refuting the claim that no further bytes from the
in-flight read are counted. -/
theorem cancelled_read_still_counts_cex :
    (stopTest sampleState 1).isTesting = false
    ∧ (0 : ℕ) ∈ (stopTest sampleState 1).abortedIds
    ∧ (stopTest sampleState 1).totalDownloaded = 0
    ∧ (readStream 0 2 sampleState
        [WorkerEvent.stopNow 1,
          WorkerEvent.read (ReadEvent.chunk 100)]).state.totalDownloaded = 100 := by
  refine ⟨rfl, by decide, rfl, by decide⟩

/-- C3 (amended): cancellation never takes the error path — an AbortError
is swallowed by readStream, leaving exactly the stopped state with no
error log entry, and the rejection handler filters AbortError so the
thread-error count is unchanged — and after the cancellation the worker
adds no bytes from a read still pending at the abort (it settles as
AbortError); only the single chunk of a read already fulfilled before the
abort can still be counted, after which the worker consumes nothing
further from its stream, and even that path adds no error log entry. -/
theorem abort_clean_bounded_bytes (s : TesterState) (tid n : ℕ) (now t : ℚ)
    (rest : List WorkerEvent) (m : String)
    (hrun : s.isTesting = true) (hact : threadActive s tid = true) :
    readStream tid now s
        (WorkerEvent.stopNow t :: WorkerEvent.read ReadEvent.abortErr :: rest)
      = ⟨stopTest s t, [], StreamExit.finished⟩
    ∧ (readStream tid now s
        (WorkerEvent.stopNow t :: WorkerEvent.read (ReadEvent.chunk n)
          :: rest)).state.totalDownloaded = s.totalDownloaded + n
    ∧ (readStream tid now s
        (WorkerEvent.stopNow t :: WorkerEvent.read (ReadEvent.chunk n)
          :: rest)).state.logs.countP isThreadErrorLog
        = s.logs.countP isThreadErrorLog
    ∧ (threadFail s tid "AbortError" m now).logs.countP isThreadErrorLog
        = s.logs.countP isThreadErrorLog := by
  have hcond : (s.isTesting && threadActive s tid) = true := by rw [hrun, hact]; rfl
  have hstop : (stopTest s t).isTesting = false := stopTest_isTesting s t
  have h1 : (addChunk (stopTest s t) tid n).totalDownloaded = s.totalDownloaded + n := by
    show (stopTest s t).totalDownloaded + n = _
    rw [stopTest_totalDownloaded]
  have hc2F : ((addChunk (stopTest s t) tid n).isTesting
      && threadActive (addChunk (stopTest s t) tid n) tid) = false := by
    have hI : (addChunk (stopTest s t) tid n).isTesting = false := hstop
    rw [hI]
    rfl
  have hs1stop : stopTest (addChunk (stopTest s t) tid n) now
      = addChunk (stopTest s t) tid n :=
    stopTest_not_testing _ now hstop
  refine ⟨?_, ?_, ?_, ?_⟩
  · unfold readStream
    rw [if_pos hcond]
    simp only [awaitRead]
  · unfold readStream
    rw [if_pos hcond]
    simp only [awaitRead]
    by_cases hb : (addChunk (stopTest s t) tid n).targetTrafficBytes
        ≤ ((addChunk (stopTest s t) tid n).totalDownloaded : ℚ)
    · rw [if_pos hb]
      show (stopTest (addChunk (stopTest s t) tid n) now).totalDownloaded = _
      rw [hs1stop]
      exact h1
    · rw [if_neg hb, if_neg (by simp [hc2F])]
      exact h1
  · unfold readStream
    rw [if_pos hcond]
    simp only [awaitRead]
    by_cases hb : (addChunk (stopTest s t) tid n).targetTrafficBytes
        ≤ ((addChunk (stopTest s t) tid n).totalDownloaded : ℚ)
    · rw [if_pos hb]
      show ((stopTest (addChunk (stopTest s t) tid n) now).logs
          ++ [LogEntry.targetReached]).countP isThreadErrorLog = _
      rw [hs1stop, List.countP_append]
      have h2 : List.countP isThreadErrorLog [LogEntry.targetReached] = 0 := rfl
      rw [h2, Nat.add_zero]
      show ((stopTest s t).logs).countP isThreadErrorLog = _
      rw [countP_stopTest _ (fun _ => rfl) (fun _ _ _ => rfl)]
    · rw [if_neg hb, if_neg (by simp [hc2F])]
      show ((stopTest s t).logs).countP isThreadErrorLog = _
      rw [countP_stopTest _ (fun _ => rfl) (fun _ _ _ => rfl)]
  · unfold threadFail
    rw [if_neg (by simp)]
    unfold checkAllThreadsCompleted
    split
    · rw [countP_stopTest _ (fun _ => rfl) (fun _ _ _ => rfl), pushLog_logs,
        List.countP_append]
      have h2 : List.countP isThreadErrorLog [LogEntry.allInterrupted] = 0 := rfl
      rw [h2]
      rfl
    · rfl

/-- Witness for abort_clean_bounded_bytes on the sample session: the stop
at time 1 is followed by a rejected read in one trace and by an
already-fulfilled 3-byte chunk in the other. -/
theorem abort_clean_bounded_bytes_witness :
    readStream 0 2 sampleState
        (WorkerEvent.stopNow 1 :: WorkerEvent.read ReadEvent.abortErr :: [])
      = ⟨stopTest sampleState 1, [], StreamExit.finished⟩
    ∧ (readStream 0 2 sampleState
        (WorkerEvent.stopNow 1 :: WorkerEvent.read (ReadEvent.chunk 3)
          :: [])).state.totalDownloaded = sampleState.totalDownloaded + 3
    ∧ (readStream 0 2 sampleState
        (WorkerEvent.stopNow 1 :: WorkerEvent.read (ReadEvent.chunk 3)
          :: [])).state.logs.countP isThreadErrorLog
        = sampleState.logs.countP isThreadErrorLog
    ∧ (threadFail sampleState 0 "AbortError" "x" 2).logs.countP isThreadErrorLog
        = sampleState.logs.countP isThreadErrorLog :=
  abort_clean_bounded_bytes sampleState 0 3 2 1 [] "x" rfl rfl

/-! Claim C5. -/

/-- C5: a stream that ends naturally while the session runs and the thread
is active schedules exactly one reconnect, for the same thread id, after
1000 ms; any readStream run schedules at most that one entry; the timer
callback performs no reconnect when the session has been stopped by the
time it fires; and when the session is still running it re-creates a thread
with the same id. -/
theorem reconnect_once_same_id_when_running (s s₂ s₃ : TesterState) (t : TestThread)
    (tid : ℕ) (now : ℚ) (rest evs : List WorkerEvent) (randomParam : String) (ts : ℕ)
    (hrun : s.isTesting = true) (hact : threadActive s tid = true)
    (h₂ : s₂.isTesting = false) (h₃ : s₃.isTesting = true) :
    (readStream tid now s (WorkerEvent.read ReadEvent.done :: rest)).scheduled = [(tid, 1000)]
    ∧ ((readStream tid now s evs).scheduled = []
        ∨ (readStream tid now s evs).scheduled = [(tid, 1000)])
    ∧ fireReconnect s₂ t randomParam ts = s₂
    ∧ fireReconnect s₃ t randomParam ts = reconnectThread s₃ t randomParam ts
    ∧ ∃ nt ∈ (fireReconnect s₃ t randomParam ts).activeThreads,
        nt.id = t.id ∧ nt.url = mkTestUrl (beforeQuery t.url) t.id randomParam ts := by
  have hcond : (s.isTesting && threadActive s tid) = true := by rw [hrun, hact]; rfl
  have hfire : fireReconnect s₃ t randomParam ts = reconnectThread s₃ t randomParam ts := by
    unfold fireReconnect
    rw [if_pos h₃]
  refine ⟨?_, readStream_scheduled evs s tid now, ?_, hfire, ?_⟩
  · unfold readStream
    rw [if_pos hcond]
    rfl
  · unfold fireReconnect
    rw [if_neg (by simp [h₂])]
  · rw [hfire]
    exact ⟨⟨t.id, mkTestUrl (beforeQuery t.url) t.id randomParam ts, 0, true⟩,
      List.mem_append_right _ (List.mem_singleton.mpr rfl), rfl, rfl⟩

/-- Witness for reconnect_once_same_id_when_running on the sample session:
a done event schedules the single reconnect (0, 1000); the fired callback
reconnects only in the running state. -/
theorem reconnect_once_same_id_when_running_witness :
    (readStream 0 1 sampleState
        (WorkerEvent.read ReadEvent.done :: [])).scheduled = [(0, 1000)]
    ∧ ((readStream 0 1 sampleState [WorkerEvent.read ReadEvent.done]).scheduled = []
        ∨ (readStream 0 1 sampleState
            [WorkerEvent.read ReadEvent.done]).scheduled = [(0, 1000)])
    ∧ fireReconnect (stopTest sampleState 1) ⟨0, "u?x", 0, true⟩ "rr" 9
        = stopTest sampleState 1
    ∧ fireReconnect sampleState ⟨0, "u?x", 0, true⟩ "rr" 9
        = reconnectThread sampleState ⟨0, "u?x", 0, true⟩ "rr" 9
    ∧ ∃ nt ∈ (fireReconnect sampleState ⟨0, "u?x", 0, true⟩ "rr" 9).activeThreads,
        nt.id = (⟨0, "u?x", 0, true⟩ : TestThread).id
        ∧ nt.url = mkTestUrl (beforeQuery (⟨0, "u?x", 0, true⟩ : TestThread).url)
            (⟨0, "u?x", 0, true⟩ : TestThread).id "rr" 9 :=
  reconnect_once_same_id_when_running sampleState (stopTest sampleState 1) sampleState
    ⟨0, "u?x", 0, true⟩ 0 1 [] [WorkerEvent.read ReadEvent.done] "rr" 9 rfl rfl
    (stopTest_isTesting sampleState 1) rfl

/-! Claim C7. -/

/-- C7: the progress percentage is min of 100 and the downloaded fraction
times 100; along any readStream run of a session with positive budget the
total downloaded never decreases, so the progress percentage is
monotonically non-decreasing, and it never exceeds 100. -/
theorem progress_monotone_capped (s : TesterState) (tid : ℕ) (now : ℚ)
    (evs : List WorkerEvent) (hT : 0 < s.targetTrafficBytes) :
    s.totalDownloaded ≤ (readStream tid now s evs).state.totalDownloaded
    ∧ progressPercent s.totalDownloaded s.targetTrafficBytes
        ≤ progressPercent (readStream tid now s evs).state.totalDownloaded
            (readStream tid now s evs).state.targetTrafficBytes
    ∧ progressPercent (readStream tid now s evs).state.totalDownloaded
        (readStream tid now s evs).state.targetTrafficBytes ≤ 100
    ∧ progressPercent s.totalDownloaded s.targetTrafficBytes
        = min 100 (100 * (s.totalDownloaded : ℚ) / s.targetTrafficBytes) := by
  obtain ⟨hmono, htgt⟩ := readStream_total_target evs s tid now
  refine ⟨hmono, ?_, min_le_left _ _, ?_⟩
  · rw [htgt]
    unfold progressPercent
    refine min_le_min le_rfl ?_
    have hc : (s.totalDownloaded : ℚ) ≤ ((readStream tid now s evs).state.totalDownloaded : ℚ) := by
      exact_mod_cast hmono
    gcongr
  · unfold progressPercent
    congr 1
    ring

/-- Witness for progress_monotone_capped on the sample session consuming a
2-byte chunk. -/
theorem progress_monotone_capped_witness :
    sampleState.totalDownloaded
        ≤ (readStream 0 1 sampleState [WorkerEvent.read (ReadEvent.chunk 2)]).state.totalDownloaded
    ∧ progressPercent sampleState.totalDownloaded sampleState.targetTrafficBytes
        ≤ progressPercent (readStream 0 1 sampleState [WorkerEvent.read (ReadEvent.chunk 2)]).state.totalDownloaded
            (readStream 0 1 sampleState [WorkerEvent.read (ReadEvent.chunk 2)]).state.targetTrafficBytes
    ∧ progressPercent (readStream 0 1 sampleState [WorkerEvent.read (ReadEvent.chunk 2)]).state.totalDownloaded
        (readStream 0 1 sampleState [WorkerEvent.read (ReadEvent.chunk 2)]).state.targetTrafficBytes ≤ 100
    ∧ progressPercent sampleState.totalDownloaded sampleState.targetTrafficBytes
        = min 100 (100 * (sampleState.totalDownloaded : ℚ) / sampleState.targetTrafficBytes) :=
  progress_monotone_capped sampleState 0 1 [WorkerEvent.read (ReadEvent.chunk 2)]
    (by norm_num [sampleState])

/-! Claim C4: helper lemmas. -/

theorem stopTest_threads (x : TesterState) (now : ℚ) :
    (stopTest x now).activeThreads = x.activeThreads
    ∨ (stopTest x now).activeThreads = [] := by
  unfold stopTest
  split
  · exact Or.inl rfl
  · exact Or.inr rfl

theorem ite_pushLog_threads (c : Prop) [Decidable c] (e : LogEntry) (st : TesterState) :
    (if c then pushLog e st else st).activeThreads = st.activeThreads := by
  split <;> rfl

theorem ite_pushLog_isTesting (c : Prop) [Decidable c] (e : LogEntry) (st : TesterState) :
    (if c then pushLog e st else st).isTesting = st.isTesting := by
  split <;> rfl

theorem countAI_ite_pushLog_threadError (c : Prop) [Decidable c] (tid : ℕ) (m : String)
    (st : TesterState) :
    ((if c then pushLog (LogEntry.threadError tid m) st else st).logs).countP isAllInterrupted
      = st.logs.countP isAllInterrupted := by
  split
  · rw [pushLog_logs, List.countP_append]
    simp [List.countP_cons, isAllInterrupted]
  · rfl

theorem deactivate_id (t0 : TestThread) (tid : ℕ) :
    (if t0.id = tid then { t0 with isActive := false } else t0).id = t0.id := by
  split <;> rfl

theorem mem_deactivate (l : List TestThread) (tid : ℕ) :
    ∀ t ∈ l.map (fun t => if t.id = tid then { t with isActive := false } else t),
      t.id = tid → t.isActive = false := by
  intro t ht hid
  obtain ⟨t0, _, rfl⟩ := List.mem_map.mp ht
  by_cases h : t0.id = tid
  · simp [h]
  · rw [if_neg h] at hid ⊢
    exact absurd hid h

theorem mem_deactivate_mono (l : List TestThread) (tid2 tid : ℕ)
    (hd : ∀ t ∈ l, t.id = tid → t.isActive = false) :
    ∀ t ∈ l.map (fun t => if t.id = tid2 then { t with isActive := false } else t),
      t.id = tid → t.isActive = false := by
  intro t ht hid
  obtain ⟨t0, ht0, rfl⟩ := List.mem_map.mp ht
  by_cases h : t0.id = tid2
  · simp [h]
  · rw [if_neg h] at hid ⊢
    exact hd t0 ht0 hid

theorem any_active_of_not_all (l : List TestThread)
    (h : l.all (fun t => !t.isActive) = false) :
    l.any (fun t => t.isActive) = true := by
  induction l with
  | nil => exact absurd h (by simp)
  | cons a as ih =>
    by_cases ha : a.isActive = true
    · simp [List.any_cons, ha]
    · have ha2 : a.isActive = false := by revert ha; cases a.isActive <;> simp
      have h2 : as.all (fun t => !t.isActive) = false := by
        rw [List.all_cons, ha2] at h
        simpa using h
      simp [List.any_cons, ih h2]

theorem checkAll_sub (x : TesterState) (now : ℚ) :
    ∀ t ∈ (checkAllThreadsCompleted x now).activeThreads, t ∈ x.activeThreads := by
  unfold checkAllThreadsCompleted
  split
  · intro t ht
    rcases stopTest_threads (pushLog LogEntry.allInterrupted x) now with h | h
    · rw [h] at ht
      exact ht
    · rw [h] at ht
      cases ht
  · intro t ht
    exact ht

theorem threadFail_dead_self (st : TesterState) (tid : ℕ) (nm m : String) (now : ℚ) :
    deadIn (threadFail st tid nm m now) tid := by
  intro t ht hid
  have ht2 := checkAll_sub _ now t ht
  exact mem_deactivate _ tid t ht2 hid

theorem threadFail_dead_mono (st : TesterState) (tid2 tid : ℕ) (nm m : String) (now : ℚ)
    (hd : deadIn st tid) : deadIn (threadFail st tid2 nm m now) tid := by
  intro t ht hid
  have ht2 := checkAll_sub _ now t ht
  have hd1 : ∀ t ∈ (if nm ≠ "AbortError" then pushLog (LogEntry.threadError tid2 m) st
      else st).activeThreads, t.id = tid → t.isActive = false := by
    rw [ite_pushLog_threads]
    exact hd
  exact mem_deactivate_mono _ tid2 tid hd1 t ht2 hid

theorem threadFail_ids (st : TesterState) (tid : ℕ) (nm m : String) (now : ℚ) :
    ∀ t ∈ (threadFail st tid nm m now).activeThreads,
      ∃ t0 ∈ st.activeThreads, t.id = t0.id := by
  intro t ht
  have ht2 := checkAll_sub _ now t ht
  obtain ⟨t0, ht0, rfl⟩ := List.mem_map.mp ht2
  rw [ite_pushLog_threads] at ht0
  exact ⟨t0, ht0, deactivate_id t0 tid⟩

theorem checkAll_markInactive_inv (y : TesterState) (tid : ℕ) (now : ℚ)
    (hc0 : y.isTesting = true → y.logs.countP isAllInterrupted = 0)
    (hc1 : y.isTesting = false → y.logs.countP isAllInterrupted = 1) :
    InvAI (checkAllThreadsCompleted (markInactive y tid) now) := by
  unfold checkAllThreadsCompleted
  by_cases hcond : (((markInactive y tid).activeThreads.all fun t => !t.isActive)
      && (markInactive y tid).isTesting) = true
  · rw [if_pos hcond]
    constructor
    · intro habs
      rw [stopTest_isTesting] at habs
      cases habs
    · intro _
      rw [countP_stopTest _ (fun _ => rfl) (fun _ _ _ => rfl), pushLog_logs,
        List.countP_append]
      have hcond2 := hcond
      rw [Bool.and_eq_true] at hcond2
      have h0 : (markInactive y tid).logs.countP isAllInterrupted = 0 := hc0 hcond2.2
      rw [h0]
      rfl
  · rw [if_neg hcond]
    constructor
    · intro hT2
      refine ⟨hc0 hT2, ?_⟩
      have hall : ((markInactive y tid).activeThreads.all fun t => !t.isActive) = false := by
        cases hA : ((markInactive y tid).activeThreads.all fun t => !t.isActive)
        · rfl
        · exact absurd (by simp [hA, hT2]) hcond
      exact any_active_of_not_all _ hall
    · intro hF2
      exact hc1 hF2

theorem threadFail_inv (st : TesterState) (tid : ℕ) (nm m : String) (now : ℚ)
    (h : InvAI st) : InvAI (threadFail st tid nm m now) := by
  unfold threadFail
  by_cases hnm : nm ≠ "AbortError"
  · rw [if_pos hnm]
    apply checkAll_markInactive_inv
    · intro hT
      rw [pushLog_logs, List.countP_append]
      simp [List.countP_cons, isAllInterrupted, (h.1 hT).1]
    · intro hF
      rw [pushLog_logs, List.countP_append]
      simp [List.countP_cons, isAllInterrupted, h.2 hF]
  · rw [if_neg hnm]
    exact checkAll_markInactive_inv st tid now (fun hT => (h.1 hT).1) h.2

theorem foldFail_dead_mono (now : ℚ) :
    ∀ (evs : List (ℕ × String × String)) (st : TesterState) (tid : ℕ),
      deadIn st tid →
      deadIn (evs.foldl (fun st e => threadFail st e.1 e.2.1 e.2.2 now) st) tid := by
  intro evs
  induction evs with
  | nil => intro st tid hd; exact hd
  | cons e rest ih =>
    intro st tid hd
    exact ih _ tid (threadFail_dead_mono st e.1 tid e.2.1 e.2.2 now hd)

theorem foldFail_dead (now : ℚ) :
    ∀ (evs : List (ℕ × String × String)) (st : TesterState) (e : ℕ × String × String),
      e ∈ evs →
      deadIn (evs.foldl (fun st e => threadFail st e.1 e.2.1 e.2.2 now) st) e.1 := by
  intro evs
  induction evs with
  | nil => intro st e he; cases he
  | cons f fs ih =>
    intro st e he
    rcases List.mem_cons.mp he with rfl | hmem
    · exact foldFail_dead_mono now fs _ e.1 (threadFail_dead_self st e.1 e.2.1 e.2.2 now)
    · exact ih _ e hmem

theorem foldFail_ids (now : ℚ) :
    ∀ (evs : List (ℕ × String × String)) (st : TesterState),
      ∀ t ∈ (evs.foldl (fun st e => threadFail st e.1 e.2.1 e.2.2 now) st).activeThreads,
        ∃ t0 ∈ st.activeThreads, t.id = t0.id := by
  intro evs
  induction evs with
  | nil => intro st t ht; exact ⟨t, ht, rfl⟩
  | cons f fs ih =>
    intro st t ht
    obtain ⟨t1, ht1, hid1⟩ := ih (threadFail st f.1 f.2.1 f.2.2 now) t ht
    obtain ⟨t0, ht0, hid0⟩ := threadFail_ids st f.1 f.2.1 f.2.2 now t1 ht1
    exact ⟨t0, ht0, hid1.trans hid0⟩

theorem foldFail_inv (now : ℚ) :
    ∀ (evs : List (ℕ × String × String)) (st : TesterState),
      InvAI st →
      InvAI (evs.foldl (fun st e => threadFail st e.1 e.2.1 e.2.2 now) st) := by
  intro evs
  induction evs with
  | nil => intro st h; exact h
  | cons f fs ih =>
    intro st h
    exact ih _ (threadFail_inv st f.1 f.2.1 f.2.2 now h)

/-! Claim C4. -/

/-- C4: from a running session whose threads are all still active, if the
rejection handler fires for every thread id (each thread fails), the folded
result has the session stopped (isTesting false) and exactly one
all-threads-interrupted warning in the log — not one per worker. -/
theorem all_threads_failed_single_stop (s : TesterState)
    (events : List (ℕ × String × String)) (now : ℚ)
    (hrun : s.isTesting = true)
    (hactive : ∀ t ∈ s.activeThreads, t.isActive = true)
    (hne : s.activeThreads ≠ [])
    (hlog : s.logs.countP isAllInterrupted = 0)
    (hcover : ∀ t ∈ s.activeThreads, ∃ e ∈ events, e.1 = t.id) :
    (events.foldl (fun st e => threadFail st e.1 e.2.1 e.2.2 now) s).isTesting = false
    ∧ (events.foldl (fun st e => threadFail st e.1 e.2.1 e.2.2 now) s).logs.countP
        isAllInterrupted = 1 := by
  have hInv0 : InvAI s := by
    constructor
    · intro _
      refine ⟨hlog, ?_⟩
      cases hth : s.activeThreads with
      | nil => exact absurd hth hne
      | cons a as =>
        have ha : a.isActive = true := hactive a (by rw [hth]; exact List.mem_cons_self a as)
        rw [List.any_cons, ha]
        rfl
    · intro hF
      rw [hrun] at hF
      cases hF
  have hInv : InvAI (events.foldl (fun st e => threadFail st e.1 e.2.1 e.2.2 now) s) :=
    foldFail_inv now events s hInv0
  have hstopped :
      (events.foldl (fun st e => threadFail st e.1 e.2.1 e.2.2 now) s).isTesting = false := by
    cases hF : (events.foldl (fun st e => threadFail st e.1 e.2.1 e.2.2 now) s).isTesting
    · rfl
    · obtain ⟨_, hany⟩ := hInv.1 hF
      obtain ⟨t, htF, hta⟩ := List.any_eq_true.mp hany
      obtain ⟨t0, ht0, hid⟩ := foldFail_ids now events s t htF
      obtain ⟨e, he, heid⟩ := hcover t0 ht0
      have hdead := foldFail_dead now events s e he
      have := hdead t htF (by rw [hid, heid])
      rw [this] at hta
      cases hta
  exact ⟨hstopped, hInv.2 hstopped⟩

/-- Witness for all_threads_failed_single_stop: both threads of the
two-thread session fail with a transport error; the fold stops the session
and logs the warning once. -/
theorem all_threads_failed_single_stop_witness :
    (([(0, "TypeError", "boom"), (1, "TypeError", "boom")] :
        List (ℕ × String × String)).foldl
      (fun st e => threadFail st e.1 e.2.1 e.2.2 0) twoThreadState).isTesting = false
    ∧ (([(0, "TypeError", "boom"), (1, "TypeError", "boom")] :
        List (ℕ × String × String)).foldl
      (fun st e => threadFail st e.1 e.2.1 e.2.2 0) twoThreadState).logs.countP
        isAllInterrupted = 1 :=
  all_threads_failed_single_stop twoThreadState
    [(0, "TypeError", "boom"), (1, "TypeError", "boom")] 0 rfl
    (by decide) (by decide) (by decide) (by decide)

end NetTester
